import Mathlib

/-!
Verification of the emastrack domain calculation engine: a shallow embedding
of the holdings calculator, goal progress evaluator, zakat eligibility engine,
transaction handlers and price cache, together with theorems about them.

Modelling conventions:
* decimal amounts (gram weights, prices) are rationals;
* timestamps are integers counting milliseconds since the epoch, mirroring
  JavaScript `Date.getTime()`; `Math.floor` over a real quotient becomes
  `Int.fdiv`;
* a user's ledger is a `List Transaction`; functions whose source reads the
  transaction table `ORDER BY transaction_date` receive the list already in
  ascending `transaction_date` order (theorems that depend on the order state
  it; order-independent results are proved order-independent);
* the database row targeted by an update, and the latest `zakat_reminders`
  row, are passed explicitly; each handler returns the row it persists.
-/

namespace EmasTrack

/-- `transaction_type` enum of the schema: `buy` or `sell`. -/
inductive TxType where
  | buy : TxType
  | sell : TxType
deriving DecidableEq, Repr

/-- The fields of a `gold_transactions` row that the calculation engine
reads: type, weight and date. -/
structure Transaction where
  type : TxType
  weight_grams : ℚ
  transaction_date : ℤ
deriving DecidableEq, Repr

/-- Nisab threshold: minimum grams for zakat eligibility (`NISAB_GRAMS`). -/
def NISAB_GRAMS : ℚ := 85

/-- One lunar year in days (`LUNAR_YEAR_DAYS`). -/
def LUNAR_YEAR_DAYS : ℤ := 354

/-- Zakat rate of 2.5% (`ZAKAT_RATE`). -/
def ZAKAT_RATE : ℚ := 0.025

/-- Milliseconds in one day: `1000 * 60 * 60 * 24`. -/
def msPerDay : ℤ := 86400000

/-- JavaScript `Math.round(x * 100) / 100`: round to 2 decimal places,
halves rounding up (`Math.round x = Math.floor (x + 0.5)`). -/
def round2 (x : ℚ) : ℚ :=
  ((⌊x * 100 + 1 / 2⌋ : ℤ) : ℚ) / 100

/-- One step of the transaction loops in `calculateUserGoldHoldings` and
`findFirstNisabExceedDate`: add buy weights, subtract sell weights. -/
def txStep (acc : ℚ) (t : Transaction) : ℚ :=
  match t.type with
  | TxType.buy => acc + t.weight_grams
  | TxType.sell => acc - t.weight_grams

/-- The signed weight a single transaction contributes to the running total. -/
def txDelta (t : Transaction) : ℚ :=
  match t.type with
  | TxType.buy => t.weight_grams
  | TxType.sell => - t.weight_grams

/-- The net weight of a ledger: the running total of `txStep` from zero. -/
def netWeight (txs : List Transaction) : ℚ :=
  txs.foldl txStep 0

/-- `calculateUserGoldHoldings` (zakat engine): loop over all transactions
adding buys and subtracting sells, then clamp at zero
(`Math.max(0, totalHoldings)`). -/
def calculateUserGoldHoldings (txs : List Transaction) : ℚ :=
  max 0 (netWeight txs)

/-- `transaction.type === 'buy'` as a Boolean test. -/
def isBuy (t : Transaction) : Bool :=
  match t.type with
  | TxType.buy => true
  | TxType.sell => false

/-- `transaction.type === 'sell'` as a Boolean test. -/
def isSell (t : Transaction) : Bool :=
  match t.type with
  | TxType.buy => false
  | TxType.sell => true

/-- The dashboard's `SUM(weight_grams) WHERE type = 'buy'` (empty sum read
as 0). -/
def totalBought (txs : List Transaction) : ℚ :=
  ((txs.filter isBuy).map Transaction.weight_grams).sum

/-- The dashboard's `SUM(weight_grams) WHERE type = 'sell'` (empty sum read
as 0). -/
def totalSold (txs : List Transaction) : ℚ :=
  ((txs.filter isSell).map Transaction.weight_grams).sum

/-- `calculateTotalGoldHoldings` (dashboard): two per-type SQL sums combined
as `Math.max(0, totalBought - totalSold)`. -/
def calculateTotalGoldHoldings (txs : List Transaction) : ℚ :=
  max 0 (totalBought txs - totalSold txs)

/-- The fields of a `zakat_reminders` row that the engine reads and writes. -/
structure ZakatRecord where
  gold_weight_grams : ℚ
  holding_start_date : ℤ
  is_eligible : Bool
  next_reminder_date : Option ℤ
deriving DecidableEq, Repr

/-- `findFirstNisabExceedDate` (zakat engine): walk the ledger in ascending
date order keeping a running total; return the date of the first transaction
at which the running total reaches `NISAB_GRAMS`, else `null`. The running
total is the explicit accumulator. -/
def findFirstNisabExceedDate : ℚ → List Transaction → Option ℤ
  | _, [] => none
  | running, t :: rest =>
    let running2 := txStep running t
    if NISAB_GRAMS ≤ running2 then some t.transaction_date
    else findFirstNisabExceedDate running2 rest

/-- `updateZakatStatus` (zakat engine): recompute holdings, decide the nisab
branch, derive the holding start date (reuse the existing record's date, else
replay the ledger, else fall back to `now`), derive eligibility from whole
days held, and return the record that is persisted (upsert). `txs` is the
ledger in ascending `transaction_date` order; `existing` is the latest
`zakat_reminders` row for the user, if any. -/
def updateZakatStatus (now : ℤ) (txs : List Transaction)
    (existing : Option ZakatRecord) : ZakatRecord :=
  let currentHoldings := calculateUserGoldHoldings txs
  if NISAB_GRAMS ≤ currentHoldings then
    let holdingStartDate :=
      match existing with
      | some r => r.holding_start_date
      | none => (findFirstNisabExceedDate 0 txs).getD now
    let daysSinceStart := (now - holdingStartDate).fdiv msPerDay
    let isEligible : Bool := decide (LUNAR_YEAR_DAYS ≤ daysSinceStart)
    { gold_weight_grams := currentHoldings
      holding_start_date := holdingStartDate
      is_eligible := isEligible
      next_reminder_date :=
        if isEligible then
          some (holdingStartDate + LUNAR_YEAR_DAYS * 2 * msPerDay)
        else none }
  else
    { gold_weight_grams := currentHoldings
      holding_start_date := now
      is_eligible := false
      next_reminder_date := none }

/-- A sequence of `updateZakatStatus` invocations for one user, threading the
persisted record: each call reads the record left by the previous one. Every
call persists a record, so the state is `some` afterwards. -/
def runZakatUpdates (st : Option ZakatRecord)
    (invocations : List (ℤ × List Transaction)) : Option ZakatRecord :=
  invocations.foldl (fun s inv => some (updateZakatStatus inv.1 inv.2 s)) st

/-- `getZakatStatus` then `calculateZakatAmount` (zakat engine): 0 when there
is no record or it is not eligible, else 2.5% of the recorded weight times
the price, rounded to 2 decimals with `Math.round(x * 100) / 100`. -/
def calculateZakatAmount (status : Option ZakatRecord) (pricePerGram : ℚ) :
    ℚ :=
  match status with
  | none => 0
  | some r =>
    if r.is_eligible then
      round2 (r.gold_weight_grams * pricePerGram * ZAKAT_RATE)
    else 0

/-- Nisab threshold constant of the dashboard handler
(`ZAKAT_NISAB_GRAMS`). -/
def ZAKAT_NISAB_GRAMS : ℚ := 85

/-- Required holding days constant of the dashboard handler
(`ZAKAT_REQUIRED_DAYS`). -/
def ZAKAT_REQUIRED_DAYS : ℤ := 354

/-- The anonymous zakat-status object the dashboard helper returns. -/
structure ZakatStatusView where
  is_eligible : Bool
  current_weight_grams : ℚ
  threshold_grams : ℚ
  days_held : Option ℤ
  required_days : ℤ
deriving DecidableEq, Repr

/-- `calculateZakatStatus` (dashboard helper): when the weight meets the
threshold, `days_held` is the whole days since the user's earliest
transaction (`ORDER BY transaction_date LIMIT 1`, here the head of the
ascending-ordered ledger); eligibility additionally requires
`ZAKAT_REQUIRED_DAYS` days. Otherwise `days_held` stays `null`. -/
def calculateZakatStatus (now : ℤ) (txs : List Transaction)
    (currentWeightGrams : ℚ) : ZakatStatusView :=
  let meetsThreshold := decide (ZAKAT_NISAB_GRAMS ≤ currentWeightGrams)
  let daysHeld : Option ℤ :=
    if meetsThreshold then
      match txs.head? with
      | some t => some ((now - t.transaction_date).fdiv msPerDay)
      | none => none
    else none
  let isEligible : Bool :=
    meetsThreshold &&
      match daysHeld with
      | some d => decide (ZAKAT_REQUIRED_DAYS ≤ d)
      | none => false
  { is_eligible := isEligible
    current_weight_grams := currentWeightGrams
    threshold_grams := ZAKAT_NISAB_GRAMS
    days_held := daysHeld
    required_days := ZAKAT_REQUIRED_DAYS }

/-- The fields of a `gold_goals` row the dashboard reads. -/
structure Goal where
  id : ℕ
  title : String
  target_weight_grams : ℚ
  deadline : ℤ
  is_completed : Bool
deriving DecidableEq, Repr

/-- One element of `calculateGoalsProgress`'s result. -/
structure GoalProgress where
  id : ℕ
  title : String
  target_weight_grams : ℚ
  current_progress_percentage : ℚ
  deadline : ℤ
  is_completed : Bool
deriving DecidableEq, Repr

/-- The body of `calculateGoalsProgress`'s `goals.map`: clamp the raw
percentage at 100 (or use 0 for a non-positive target), then round to two
decimals with `Math.round(p * 100) / 100`. -/
def goalProgressOf (currentHoldings : ℚ) (goal : Goal) : GoalProgress :=
  let targetWeight := goal.target_weight_grams
  let progressPercentage :=
    if 0 < targetWeight then min 100 (currentHoldings / targetWeight * 100)
    else 0
  { id := goal.id
    title := goal.title
    target_weight_grams := targetWeight
    current_progress_percentage := round2 progressPercentage
    deadline := goal.deadline
    is_completed := goal.is_completed }

/-- `calculateGoalsProgress` (dashboard): fetch the user's goals and current
holdings and map each goal to its progress entry. -/
def calculateGoalsProgress (goals : List Goal) (currentHoldings : ℚ) :
    List GoalProgress :=
  goals.map (goalProgressOf currentHoldings)

/-- The numeric fields of a `gold_transactions` row that the transaction
handlers read and write. -/
structure TransactionRow where
  type : TxType
  weight_grams : ℚ
  price_per_gram : ℚ
  total_price : ℚ
  transaction_date : ℤ
deriving DecidableEq, Repr

/-- `createTransaction`: derive `total_price` as
`Math.round((weight * price) * 100) / 100` and persist the row. -/
def createTransaction (type : TxType) (weight_grams price_per_gram : ℚ)
    (transaction_date : ℤ) : TransactionRow :=
  { type := type
    weight_grams := weight_grams
    price_per_gram := price_per_gram
    total_price := round2 (weight_grams * price_per_gram)
    transaction_date := transaction_date }

/-- `updateTransaction`: overwrite only the provided fields; when weight or
price is provided, recompute `total_price` from the final weight and final
price with the same rounding, else leave it untouched. -/
def updateTransaction (row : TransactionRow) (type? : Option TxType)
    (weight? price? : Option ℚ) (date? : Option ℤ) : TransactionRow :=
  let finalWeightGrams := weight?.getD row.weight_grams
  let finalPricePerGram := price?.getD row.price_per_gram
  { type := type?.getD row.type
    weight_grams := finalWeightGrams
    price_per_gram := finalPricePerGram
    total_price :=
      if weight?.isSome || price?.isSome then
        round2 (finalWeightGrams * finalPricePerGram)
      else row.total_price
    transaction_date := date?.getD row.transaction_date }

/-- A `GoldPrice` quote: price per gram and fetch timestamp. -/
structure GoldPrice where
  price_per_gram_usd : ℚ
  timestamp : ℤ
deriving DecidableEq, Repr

/-- Cache TTL: one hour in milliseconds (`CACHE_DURATION_MS`). -/
def CACHE_DURATION_MS : ℤ := 3600000

/-- The module-level `goldPriceCache` slot: at most one quote with its
expiry. -/
def PriceCacheState : Type := Option (GoldPrice × ℤ)

/-- `updateGoldPriceCache` (put): unconditionally replace the slot with the
quote and expiry `now + CACHE_DURATION_MS`; return the new slot and `true`. -/
def updateGoldPriceCache (now : ℤ) (goldPrice : GoldPrice)
    (_cache : PriceCacheState) : PriceCacheState × Bool :=
  (some (goldPrice, now + CACHE_DURATION_MS), true)

/-- `getCachedGoldPrice` (get): `null` on an empty slot; on `now >
expires_at` clear the slot and return `null`; otherwise keep the slot and
return the quote. Returns the slot after the call and the result. -/
def getCachedGoldPrice (now : ℤ) (cache : PriceCacheState) :
    PriceCacheState × Option GoldPrice :=
  match cache with
  | none => (none, none)
  | some (price, expires_at) =>
    if expires_at < now then (none, none)
    else (some (price, expires_at), some price)

/-- `clearGoldPriceCache` (invalidate): empty the slot. -/
def clearGoldPriceCache (_cache : PriceCacheState) : PriceCacheState :=
  none

/-- The ledger of the spec's zakat-continuity example: buy 100g 400 days
ago, sell 50g 300 days ago, buy 60g 10 days ago — with "now" at day 400,
so dates are days 0, 100 and 390. -/
def dipTxs : List Transaction :=
  [⟨TxType.buy, 100, 0⟩,
   ⟨TxType.sell, 50, 100 * msPerDay⟩,
   ⟨TxType.buy, 60, 390 * msPerDay⟩]

/-- "Now" for the zakat-continuity example: day 400. -/
def dipNow : ℤ := 400 * msPerDay

/-- A ledger whose running total first reaches nisab only at the second
transaction: buy 10g at day 0, buy 80g at day 100. -/
def lateCrossTxs : List Transaction :=
  [⟨TxType.buy, 10, 0⟩, ⟨TxType.buy, 80, 100 * msPerDay⟩]

/-- "Now" for the late-crossing example: day 500. -/
def lateCrossNow : ℤ := 500 * msPerDay

theorem txStep_eq_add_delta (acc : ℚ) (t : Transaction) :
    txStep acc t = acc + txDelta t := by
  cases t with
  | mk ty w d => cases ty <;> simp [txStep, txDelta, sub_eq_add_neg]

theorem foldl_txStep (txs : List Transaction) (z : ℚ) :
    txs.foldl txStep z = z + (txs.map txDelta).sum := by
  induction txs generalizing z with
  | nil => simp
  | cons t rest ih =>
    simp only [List.foldl_cons, List.map_cons, List.sum_cons, ih,
      txStep_eq_add_delta]
    ring

theorem deltaSum_eq_bought_sub_sold (txs : List Transaction) :
    (txs.map txDelta).sum = totalBought txs - totalSold txs := by
  induction txs with
  | nil => simp [totalBought, totalSold]
  | cons t rest ih =>
    cases ht : t.type
    · simp [totalBought, totalSold, List.filter_cons, isBuy, isSell, ht,
        txDelta, ih]
      ring
    · simp [totalBought, totalSold, List.filter_cons, isBuy, isSell, ht,
        txDelta, ih]
      ring

theorem netWeight_eq (txs : List Transaction) :
    netWeight txs = totalBought txs - totalSold txs := by
  simp [netWeight, foldl_txStep, deltaSum_eq_bought_sub_sold]

theorem round2_nonneg {x : ℚ} (hx : 0 ≤ x) : 0 ≤ round2 x := by
  unfold round2
  have h0 : (0 : ℤ) ≤ ⌊x * 100 + 1 / 2⌋ := by
    refine Int.le_floor.mpr ?_
    push_cast
    nlinarith
  positivity

theorem round2_le_100 {x : ℚ} (hx : x ≤ 100) : round2 x ≤ 100 := by
  unfold round2
  have h1 : ⌊x * 100 + 1 / 2⌋ < 10001 := by
    refine Int.floor_lt.mpr ?_
    push_cast
    nlinarith
  have h2 : ((⌊x * 100 + 1 / 2⌋ : ℤ) : ℚ) ≤ 10000 := by
    exact_mod_cast Int.lt_add_one_iff.mp h1
  rw [div_le_iff₀ (by norm_num)]
  linarith

theorem round2_100 : round2 100 = 100 := by
  unfold round2
  have h : ⌊(100 : ℚ) * 100 + 1 / 2⌋ = 10000 := by
    rw [Int.floor_eq_iff]
    norm_num
  rw [h]
  norm_num

theorem le_round2_of_le {x : ℚ} (hx : 100 ≤ x) : 100 ≤ round2 x := by
  unfold round2
  have h : (10000 : ℤ) ≤ ⌊x * 100 + 1 / 2⌋ := by
    refine Int.le_floor.mpr ?_
    push_cast
    nlinarith
  rw [le_div_iff₀ (by norm_num)]
  exact_mod_cast h

theorem round2_min_100 (x : ℚ) : round2 (min 100 x) = min 100 (round2 x) := by
  rcases le_total x 100 with h | h
  · rw [min_eq_right h, min_eq_right (round2_le_100 h)]
  · rw [min_eq_left h, min_eq_left (le_round2_of_le h), round2_100]

/-- Claim C4: for every list of transactions, the computed net holdings
equal max(0, sum of buy weights minus sum of sell weights), the result is
nonnegative even when total sells exceed total buys, and it is invariant
under any permutation of the transaction list. -/
theorem calculateUserGoldHoldings_spec (txs txs' : List Transaction)
    (hperm : txs.Perm txs') :
    calculateUserGoldHoldings txs =
      max 0 (totalBought txs - totalSold txs) ∧
    0 ≤ calculateUserGoldHoldings txs ∧
    calculateUserGoldHoldings txs = calculateUserGoldHoldings txs' := by
  refine ⟨?_, ?_, ?_⟩
  · rw [calculateUserGoldHoldings, netWeight_eq]
  · exact le_max_left 0 _
  · have hb : totalBought txs = totalBought txs' :=
      ((hperm.filter isBuy).map Transaction.weight_grams).sum_eq
    have hs : totalSold txs = totalSold txs' :=
      ((hperm.filter isSell).map Transaction.weight_grams).sum_eq
    rw [calculateUserGoldHoldings, netWeight_eq, hb, hs,
      calculateUserGoldHoldings, netWeight_eq]

/-- Witness for C4 at a concrete two-element ledger and its transposition. -/
theorem calculateUserGoldHoldings_spec_witness :
    calculateUserGoldHoldings
        [⟨TxType.sell, 1, 1⟩, ⟨TxType.buy, 3, 0⟩] =
      calculateUserGoldHoldings
        [⟨TxType.buy, 3, 0⟩, ⟨TxType.sell, 1, 1⟩] :=
  (calculateUserGoldHoldings_spec _ _ (List.Perm.swap _ _ _)).2.2

/-- Claim C10: the dashboard's holdings (two per-type SQL sums combined as
max(0, bought - sold)) and the zakat engine's holdings (a single fold over
all transactions, clamped at 0) agree on every transaction list. -/
theorem holdings_implementations_agree (txs : List Transaction) :
    calculateTotalGoldHoldings txs = calculateUserGoldHoldings txs := by
  rw [calculateTotalGoldHoldings, calculateUserGoldHoldings, netWeight_eq]

/-- Claim C5: the goal-progress evaluator maps each goal to an entry whose
percentage is 0 for a zero target and min(100, round2(holdings / target *
100)) for a positive target, always lies in [0, 100], and whose completion
flag is the stored one unchanged. -/
theorem calculateGoalsProgress_spec (goals : List Goal) (holdings : ℚ)
    (hh : 0 ≤ holdings) :
    calculateGoalsProgress goals holdings =
        goals.map (goalProgressOf holdings) ∧
    ∀ g : Goal, 0 ≤ g.target_weight_grams →
      (goalProgressOf holdings g).is_completed = g.is_completed ∧
      (goalProgressOf holdings g).current_progress_percentage =
        (if g.target_weight_grams = 0 then 0
         else min 100 (round2 (holdings / g.target_weight_grams * 100))) ∧
      0 ≤ (goalProgressOf holdings g).current_progress_percentage ∧
      (goalProgressOf holdings g).current_progress_percentage ≤ 100 := by
  refine ⟨rfl, ?_⟩
  intro g ht
  rcases eq_or_lt_of_le ht with hz | hp
  · have hz' : g.target_weight_grams = 0 := hz.symm
    have hbranch : ¬ (0 : ℚ) < g.target_weight_grams := by rw [hz']; norm_num
    refine ⟨rfl, ?_, ?_, ?_⟩
    · simp only [goalProgressOf, hbranch, if_neg, ite_false, hz', ite_true]
      unfold round2
      norm_num
    · simp only [goalProgressOf, hbranch, ite_false]
      exact round2_nonneg le_rfl
    · simp only [goalProgressOf, hbranch, ite_false]
      exact round2_le_100 (by norm_num)
  · have hraw0 : 0 ≤ holdings / g.target_weight_grams * 100 := by positivity
    have hmin0 : 0 ≤ min 100 (holdings / g.target_weight_grams * 100) :=
      le_min (by norm_num) hraw0
    refine ⟨rfl, ?_, ?_, ?_⟩
    · simp only [goalProgressOf, hp, ite_true, if_neg (ne_of_gt hp)]
      exact round2_min_100 _
    · simp only [goalProgressOf, hp, ite_true]
      exact round2_nonneg hmin0
    · simp only [goalProgressOf, hp, ite_true]
      exact round2_le_100 (min_le_left _ _)

/-- Witness for C5: holdings 10 against a target of 20 gives 50 percent. -/
theorem calculateGoalsProgress_spec_witness :
    GoalProgress.current_progress_percentage
      (goalProgressOf 10 ⟨1, "savings", 20, 0, false⟩) = 50 := by
  have h :=
    ((calculateGoalsProgress_spec [] 10 (by norm_num)).2
      ⟨1, "savings", 20, 0, false⟩ (by norm_num)).2.1
  rw [h]
  unfold round2
  norm_num

/-- Claim C7: `calculateZakatAmount` returns 0 with no record or an
ineligible one, else round2(weight times price times 2.5%); an eligible
100-gram record at price 60 yields exactly 150. -/
theorem calculateZakatAmount_spec :
    (∀ p : ℚ, calculateZakatAmount none p = 0) ∧
    (∀ (r : ZakatRecord) (p : ℚ), r.is_eligible = false →
      calculateZakatAmount (some r) p = 0) ∧
    (∀ (r : ZakatRecord) (p : ℚ), r.is_eligible = true →
      calculateZakatAmount (some r) p =
        round2 (r.gold_weight_grams * p * ZAKAT_RATE)) ∧
    calculateZakatAmount (some ⟨100, 0, true, none⟩) 60 = 150 := by
  refine ⟨fun p => rfl, ?_, ?_, ?_⟩
  · intro r p hr
    simp [calculateZakatAmount, hr]
  · intro r p hr
    simp [calculateZakatAmount, hr]
  · simp only [calculateZakatAmount, ite_true]
    unfold round2 ZAKAT_RATE
    norm_num

/-- Witness for C7: an ineligible 100-gram record yields 0 at price 60. -/
theorem calculateZakatAmount_spec_witness :
    calculateZakatAmount (some ⟨100, 0, false, none⟩) 60 = 0 :=
  calculateZakatAmount_spec.2.1 ⟨100, 0, false, none⟩ 60 rfl

/-- Claim C6: after `updateZakatStatus`, the persisted record is eligible
exactly when holdings are at least 85 grams (the boundary counts) and the
whole days since the persisted holding start date are at least 354; the next
reminder date is start + 708 days when eligible and null otherwise. -/
theorem updateZakatStatus_eligibility (now : ℤ) (txs : List Transaction)
    (existing : Option ZakatRecord) :
    ((updateZakatStatus now txs existing).is_eligible = true ↔
      (NISAB_GRAMS ≤ calculateUserGoldHoldings txs ∧
       LUNAR_YEAR_DAYS ≤
         (now - (updateZakatStatus now txs existing).holding_start_date).fdiv
           msPerDay)) ∧
    (updateZakatStatus now txs existing).next_reminder_date =
      (if (updateZakatStatus now txs existing).is_eligible = true then
        some ((updateZakatStatus now txs existing).holding_start_date +
          LUNAR_YEAR_DAYS * 2 * msPerDay)
      else none) := by
  by_cases h : NISAB_GRAMS ≤ calculateUserGoldHoldings txs
  · constructor
    · simp [updateZakatStatus, h]
    · by_cases hd : LUNAR_YEAR_DAYS ≤
        (now - (updateZakatStatus now txs existing).holding_start_date).fdiv
          msPerDay
      · simp only [updateZakatStatus, if_pos h] at hd ⊢
      · simp only [updateZakatStatus, if_pos h] at hd ⊢
  · constructor
    · simp [updateZakatStatus, h]
    · simp [updateZakatStatus, h]

/-- One invocation of `updateZakatStatus` with a pre-existing record and
holdings at or above nisab reuses the record's holding start date. -/
theorem updateZakatStatus_keeps_start (now : ℤ) (txs : List Transaction)
    (r : ZakatRecord) (h : NISAB_GRAMS ≤ calculateUserGoldHoldings txs) :
    (updateZakatStatus now txs (some r)).holding_start_date =
      r.holding_start_date := by
  simp [updateZakatStatus, h]

/-- Claim C3: across successive `updateZakatStatus` invocations starting
from an existing record, as long as the recomputed holdings are at least 85
grams at every invocation, the persisted holding start date never changes. -/
theorem runZakatUpdates_holding_start_stable (r0 : ZakatRecord)
    (invocations : List (ℤ × List Transaction))
    (h : ∀ inv ∈ invocations,
      NISAB_GRAMS ≤ calculateUserGoldHoldings inv.2) :
    ∃ r : ZakatRecord, runZakatUpdates (some r0) invocations = some r ∧
      r.holding_start_date = r0.holding_start_date := by
  induction invocations generalizing r0 with
  | nil => exact ⟨r0, rfl, rfl⟩
  | cons inv rest ih =>
    have hhead : NISAB_GRAMS ≤ calculateUserGoldHoldings inv.2 :=
      h inv (List.mem_cons_self inv rest)
    have htail : ∀ inv2 ∈ rest,
        NISAB_GRAMS ≤ calculateUserGoldHoldings inv2.2 :=
      fun inv2 hm => h inv2 (List.mem_cons_of_mem inv hm)
    obtain ⟨r, hr, hstart⟩ := ih (updateZakatStatus inv.1 inv.2 (some r0)) htail
    refine ⟨r, ?_, ?_⟩
    · simpa [runZakatUpdates] using hr
    · rw [hstart, updateZakatStatus_keeps_start inv.1 inv.2 r0 hhead]

/-- Witness for C3: one follow-up invocation over a 100-gram ledger keeps
the stored start date 5. -/
theorem runZakatUpdates_holding_start_stable_witness :
    ∃ r : ZakatRecord,
      runZakatUpdates (some ⟨100, 5, true, none⟩)
        [(10 * msPerDay, [⟨TxType.buy, 100, 0⟩])] = some r ∧
      r.holding_start_date = 5 :=
  runZakatUpdates_holding_start_stable ⟨100, 5, true, none⟩ _ (by
    intro inv hinv
    simp only [List.mem_singleton] at hinv
    subst hinv
    norm_num [NISAB_GRAMS, calculateUserGoldHoldings, netWeight, txStep,
      le_max_iff])

/-- Claim C9: `put` always succeeds; a `get` at or before the expiry
returns the quote just put; a `get` after the expiry returns absent and
empties the slot; a `get` after an explicit invalidate returns absent. -/
theorem priceCache_spec (q : GoldPrice) (tPut tOk tLate : ℤ)
    (cache0 : PriceCacheState)
    (hOk : tOk ≤ tPut + CACHE_DURATION_MS)
    (hLate : tPut + CACHE_DURATION_MS < tLate) :
    (updateGoldPriceCache tPut q cache0).2 = true ∧
    getCachedGoldPrice tOk (updateGoldPriceCache tPut q cache0).1 =
      ((updateGoldPriceCache tPut q cache0).1, some q) ∧
    getCachedGoldPrice tLate (updateGoldPriceCache tPut q cache0).1 =
      (none, none) ∧
    getCachedGoldPrice tLate (clearGoldPriceCache cache0) = (none, none) := by
  refine ⟨rfl, ?_, ?_, rfl⟩
  · simp [getCachedGoldPrice, updateGoldPriceCache, not_lt.mpr hOk]
  · simp [getCachedGoldPrice, updateGoldPriceCache, hLate]

/-- Witness for C9 at a concrete quote, put at time 0, reads at times 10
and 3600001, empty initial slot. -/
theorem priceCache_spec_witness :
    (updateGoldPriceCache 0 ⟨65, 0⟩ none).2 = true ∧
    getCachedGoldPrice 10 (updateGoldPriceCache 0 ⟨65, 0⟩ none).1 =
      ((updateGoldPriceCache 0 ⟨65, 0⟩ none).1, some ⟨65, 0⟩) ∧
    getCachedGoldPrice 3600001 (updateGoldPriceCache 0 ⟨65, 0⟩ none).1 =
      (none, none) ∧
    getCachedGoldPrice 3600001 (clearGoldPriceCache none) = (none, none) :=
  priceCache_spec ⟨65, 0⟩ 0 10 3600001 none
    (by norm_num [CACHE_DURATION_MS]) (by norm_num [CACHE_DURATION_MS])

/-- Claim C8: `createTransaction` and every `updateTransaction` that
changes weight or price store `total_price` as weight times price rounded to
cents half-up; creating with weight 10.5 and price 65.75 yields 690.38. -/
theorem totalPrice_spec :
    (∀ (ty : TxType) (w p : ℚ) (d : ℤ),
      (createTransaction ty w p d).total_price = round2 (w * p)) ∧
    (∀ (row : TransactionRow) (ty? : Option TxType) (w? p? : Option ℚ)
      (d? : Option ℤ), (w?.isSome || p?.isSome) = true →
      (updateTransaction row ty? w? p? d?).total_price =
        round2 (w?.getD row.weight_grams * p?.getD row.price_per_gram)) ∧
    (createTransaction TxType.buy 10.5 65.75 0).total_price = 690.38 := by
  refine ⟨fun ty w p d => rfl, ?_, ?_⟩
  · intro row ty? w? p? d? h
    simp [updateTransaction, h]
  · show round2 (10.5 * 65.75) = 690.38
    unfold round2
    norm_num

/-- Witness for C8: updating only the weight of a stored row recomputes the
total from the new weight and the stored price. -/
theorem totalPrice_spec_witness :
    (updateTransaction ⟨TxType.buy, 2, 3, 6, 0⟩ none (some 4) none
        none).total_price = round2 (4 * 3) :=
  totalPrice_spec.2.1 ⟨TxType.buy, 2, 3, 6, 0⟩ none (some 4) none none rfl

theorem findFirstNisabExceedDate_some (txs : List Transaction) (z : ℚ)
    (d : ℤ) (h : findFirstNisabExceedDate z txs = some d) :
    ∃ i, ∃ hi : i < txs.length,
      d = (txs.get ⟨i, hi⟩).transaction_date ∧
      NISAB_GRAMS ≤ (txs.take (i + 1)).foldl txStep z ∧
      ∀ j, j < i → (txs.take (j + 1)).foldl txStep z < NISAB_GRAMS := by
  induction txs generalizing z with
  | nil => simp [findFirstNisabExceedDate] at h
  | cons t rest ih =>
    simp only [findFirstNisabExceedDate] at h
    by_cases hc : NISAB_GRAMS ≤ txStep z t
    · rw [if_pos hc] at h
      refine ⟨0, by simp, ?_, ?_, ?_⟩
      · simpa using (Option.some.injEq _ _ ▸ h :
          t.transaction_date = d).symm
      · simpa using hc
      · intro j hj
        omega
    · rw [if_neg hc] at h
      obtain ⟨i, hi, hd, hge, hlt⟩ := ih (txStep z t) h
      refine ⟨i + 1, by simpa using Nat.succ_lt_succ hi, ?_, ?_, ?_⟩
      · simpa using hd
      · simpa using hge
      · intro j hj
        cases j with
        | zero => simpa using lt_of_not_le hc
        | succ j' =>
          have hj' : j' < i := by omega
          simpa using hlt j' hj'

theorem findFirstNisabExceedDate_none (txs : List Transaction) (z : ℚ)
    (h : findFirstNisabExceedDate z txs = none) :
    txs = [] ∨ txs.foldl txStep z < NISAB_GRAMS := by
  induction txs generalizing z with
  | nil => exact Or.inl rfl
  | cons t rest ih =>
    simp only [findFirstNisabExceedDate] at h
    by_cases hc : NISAB_GRAMS ≤ txStep z t
    · rw [if_pos hc] at h
      exact absurd h (by simp)
    · rw [if_neg hc] at h
      right
      rcases ih (txStep z t) h with hnil | hlt
      · subst hnil
        simpa using lt_of_not_le hc
      · simpa using hlt

/-- Claim C1 (amended): with no pre-existing record and holdings at or
above nisab, `updateZakatStatus` anchors the persisted holding start date to
the date of the EARLIEST transaction at which the ascending running total
first reaches 85 grams; later dips below the threshold never re-anchor it. -/
theorem updateZakatStatus_anchors_first_crossing (now : ℤ)
    (txs : List Transaction)
    (h : NISAB_GRAMS ≤ calculateUserGoldHoldings txs) :
    ∃ i, ∃ hi : i < txs.length,
      (updateZakatStatus now txs none).holding_start_date =
        (txs.get ⟨i, hi⟩).transaction_date ∧
      NISAB_GRAMS ≤ netWeight (txs.take (i + 1)) ∧
      ∀ j, j < i → netWeight (txs.take (j + 1)) < NISAB_GRAMS := by
  have hnet : NISAB_GRAMS ≤ netWeight txs := by
    rcases le_max_iff.mp h with h0 | h1
    · rw [NISAB_GRAMS] at h0
      norm_num at h0
    · exact h1
  rcases hf : findFirstNisabExceedDate 0 txs with _ | d
  · exfalso
    rcases findFirstNisabExceedDate_none txs 0 hf with hnil | hlt
    · subst hnil
      rw [netWeight, List.foldl_nil, NISAB_GRAMS] at hnet
      norm_num at hnet
    · rw [netWeight] at hnet
      exact absurd hnet (not_le.mpr hlt)
  · obtain ⟨i, hi, hd, hge, hlt⟩ := findFirstNisabExceedDate_some txs 0 d hf
    have hstart : (updateZakatStatus now txs none).holding_start_date = d := by
      simp [updateZakatStatus, h, hf]
    refine ⟨i, hi, ?_, ?_, ?_⟩
    · rw [hstart]
      exact hd
    · rw [netWeight]
      exact hge
    · intro j hj
      rw [netWeight]
      exact hlt j hj

/-- Witness for C1's amended statement at the spec's own continuity
example ledger. -/
theorem updateZakatStatus_anchors_first_crossing_witness :
    NISAB_GRAMS ≤ calculateUserGoldHoldings dipTxs ∧
    (∃ i, ∃ hi : i < dipTxs.length,
      (updateZakatStatus dipNow dipTxs none).holding_start_date =
        (dipTxs.get ⟨i, hi⟩).transaction_date ∧
      NISAB_GRAMS ≤ netWeight (dipTxs.take (i + 1)) ∧
      ∀ j, j < i → netWeight (dipTxs.take (j + 1)) < NISAB_GRAMS) :=
  have hhold : NISAB_GRAMS ≤ calculateUserGoldHoldings dipTxs := by
    norm_num [NISAB_GRAMS, calculateUserGoldHoldings, netWeight, dipTxs,
      txStep, le_max_iff]
  ⟨hhold, updateZakatStatus_anchors_first_crossing dipNow dipTxs hhold⟩

/-- Counterexample to Claim C1 as stated: on the history buy 100g (day 0,
400 days before now), sell 50g (day 100), buy 60g (day 390, 10 days before
now), the code sets holding_start_date to day 0 — the original crossing,
400 days ago, not the post-dip crossing 10 days ago — and is_eligible comes
out true, not false. -/
theorem updateZakatStatus_dip_counterexample :
    (updateZakatStatus dipNow dipTxs none).holding_start_date = 0 ∧
    (updateZakatStatus dipNow dipTxs none).is_eligible = true ∧
    dipNow - 10 * msPerDay ≠ 0 := by
  have hhold : NISAB_GRAMS ≤ calculateUserGoldHoldings dipTxs := by
    norm_num [NISAB_GRAMS, calculateUserGoldHoldings, netWeight, dipTxs,
      txStep, le_max_iff]
  have hf : findFirstNisabExceedDate 0 dipTxs = some 0 := by
    norm_num [findFirstNisabExceedDate, dipTxs, txStep, NISAB_GRAMS]
  have hdiv : dipNow.fdiv msPerDay = 400 := by
    rw [dipNow]
    exact Int.mul_fdiv_cancel 400 (by norm_num [msPerDay])
  refine ⟨?_, ?_, ?_⟩
  · simp [updateZakatStatus, hhold, hf]
  · simp [updateZakatStatus, hhold, hf, hdiv, LUNAR_YEAR_DAYS]
  · norm_num [dipNow, msPerDay]

/-- Claim C2 (amended): whenever current weight meets the nisab threshold
and the user has at least one transaction, the dashboard's zakat status
counts `days_held` from the date of the user's EARLIEST transaction,
regardless of where the running total first reached the threshold, and
eligibility is exactly `days_held at least 354`. -/
theorem calculateZakatStatus_days_from_first_transaction (now : ℤ)
    (txs : List Transaction) (w : ℚ) (t0 : Transaction)
    (hw : ZAKAT_NISAB_GRAMS ≤ w) (h0 : txs.head? = some t0) :
    (calculateZakatStatus now txs w).days_held =
      some ((now - t0.transaction_date).fdiv msPerDay) ∧
    (calculateZakatStatus now txs w).is_eligible =
      decide (ZAKAT_REQUIRED_DAYS ≤
        (now - t0.transaction_date).fdiv msPerDay) := by
  constructor
  · simp [calculateZakatStatus, hw, h0]
  · simp [calculateZakatStatus, hw, h0]

/-- Witness for C2's amended statement on the late-crossing ledger. -/
theorem calculateZakatStatus_days_from_first_transaction_witness :
    (calculateZakatStatus lateCrossNow lateCrossTxs 90).days_held =
      some ((lateCrossNow - 0).fdiv msPerDay) ∧
    (calculateZakatStatus lateCrossNow lateCrossTxs 90).is_eligible =
      decide (ZAKAT_REQUIRED_DAYS ≤ (lateCrossNow - 0).fdiv msPerDay) :=
  calculateZakatStatus_days_from_first_transaction lateCrossNow lateCrossTxs
    90 ⟨TxType.buy, 10, 0⟩ (by norm_num [ZAKAT_NISAB_GRAMS]) rfl

/-- Counterexample to Claim C2 as stated: buy 10g at day 0, buy 80g at day
100, now day 500: net holdings 90 meet nisab, the running total first
reaches 85 only at day 100 (400 days before now), yet the dashboard reports
days_held = 500, counted from the first transaction at day 0. -/
theorem calculateZakatStatus_first_tx_counterexample :
    calculateTotalGoldHoldings lateCrossTxs = 90 ∧
    (calculateZakatStatus lateCrossNow lateCrossTxs 90).days_held =
      some 500 ∧
    findFirstNisabExceedDate 0 lateCrossTxs = some (100 * msPerDay) ∧
    (lateCrossNow - 100 * msPerDay).fdiv msPerDay = 400 ∧
    (500 : ℤ) ≠ 400 := by
  have hdiv500 : lateCrossNow.fdiv msPerDay = 500 := by
    rw [lateCrossNow]
    exact Int.mul_fdiv_cancel 500 (by norm_num [msPerDay])
  refine ⟨?_, ?_, ?_, ?_, by norm_num⟩
  · rw [calculateTotalGoldHoldings]
    norm_num [totalBought, totalSold, lateCrossTxs, isBuy, isSell]
  · norm_num [calculateZakatStatus, lateCrossTxs, ZAKAT_NISAB_GRAMS, hdiv500]
  · norm_num [findFirstNisabExceedDate, lateCrossTxs, txStep, NISAB_GRAMS]
  · have hsub : lateCrossNow - 100 * msPerDay = 400 * msPerDay := by
      rw [lateCrossNow]
      ring
    rw [hsub]
    exact Int.mul_fdiv_cancel 400 (by norm_num [msPerDay])

end EmasTrack
